import Mathlib

/-!
Verification of the Creator Dashboard backend core: the credit ledger
(balance store, transaction log, reward rules) and the content ingestion
pipeline (normalizers, dedup upsert, feed query), shallowly embedded from
the JavaScript source in src/backend.

Timestamps are modelled as natural numbers of milliseconds (JavaScript
Date.now values); JavaScript numbers used as credit amounts are modelled
as integers, matching the parseInt validation in the services.
-/

namespace CreatorDashboard

/-! ## Credit ledger data model, from src/backend/src/models/credit.model.js -/

/-- Transaction kinds, from the creditTransactionSchema type enum. -/
inductive TxType where
  | earn
  | spend
  | adjustment
deriving Repr, DecidableEq

/-- Transaction categories, from the creditTransactionSchema category enum. -/
inductive Category where
  | daily_login
  | profile_completion
  | content_interaction
  | special_event
  | admin_adjustment
  | feature_usage
  | other
deriving Repr, DecidableEq

/-- One CreditTransaction document: type, signed amount, balance snapshot
after the mutation, category and creation time. -/
structure CreditTransaction where
  type : TxType
  amount : Int
  balance : Int
  category : Category
  createdAt : Nat
deriving Repr, DecidableEq

/-- One CreditBalance document: current balance, lifetime totals and the
last daily-login reward timestamp. -/
structure CreditBalance where
  balance : Int
  totalEarned : Int
  totalSpent : Int
  lastDailyLoginReward : Option Nat
deriving Repr, DecidableEq

/-- A user ledger: the CreditBalance document plus that user's
CreditTransaction documents in insertion order. -/
structure LedgerState where
  cb : CreditBalance
  txLog : List CreditTransaction
deriving Repr, DecidableEq

/-- The lazily created initial balance (CreditBalance.create with balance 0). -/
def initialLedger : LedgerState :=
  { cb := { balance := 0, totalEarned := 0, totalSpent := 0, lastDailyLoginReward := none }
  , txLog := [] }

/-- creditBalanceSchema.methods.addCredits: add to balance and totalEarned,
record the daily-login timestamp for that category, append an earn
transaction carrying the new balance. -/
def addCreditsM (st : LedgerState) (amount : Int) (category : Category) (now : Nat) :
    LedgerState :=
  let cb' : CreditBalance :=
    { balance := st.cb.balance + amount
    , totalEarned := st.cb.totalEarned + amount
    , totalSpent := st.cb.totalSpent
    , lastDailyLoginReward :=
        if category = Category.daily_login then some now else st.cb.lastDailyLoginReward }
  { cb := cb'
  , txLog := st.txLog ++
      [{ type := TxType.earn, amount := amount, balance := cb'.balance
       , category := category, createdAt := now }] }

/-- creditBalanceSchema.methods.deductCredits: fail when balance < amount,
otherwise subtract from balance, add to totalSpent, and append a spend
transaction with the negated amount. -/
def deductCreditsM (st : LedgerState) (amount : Int) (category : Category) (now : Nat) :
    Option LedgerState :=
  if st.cb.balance < amount then
    none
  else
    let cb' : CreditBalance :=
      { balance := st.cb.balance - amount
      , totalEarned := st.cb.totalEarned
      , totalSpent := st.cb.totalSpent + amount
      , lastDailyLoginReward := st.cb.lastDailyLoginReward }
    some
      { cb := cb'
      , txLog := st.txLog ++
          [{ type := TxType.spend, amount := -amount, balance := cb'.balance
           , category := category, createdAt := now }] }

/-- creditBalanceSchema.methods.adjustCredits: add the signed amount to the
balance, bump totalEarned for a positive amount and totalSpent by the
absolute value otherwise, and append an adjustment transaction under the
admin_adjustment category. -/
def adjustCreditsM (st : LedgerState) (amount : Int) (now : Nat) : LedgerState :=
  let cb' : CreditBalance :=
    { balance := st.cb.balance + amount
    , totalEarned := if amount > 0 then st.cb.totalEarned + amount else st.cb.totalEarned
    , totalSpent := if amount > 0 then st.cb.totalSpent else st.cb.totalSpent + |amount|
    , lastDailyLoginReward := st.cb.lastDailyLoginReward }
  { cb := cb'
  , txLog := st.txLog ++
      [{ type := TxType.adjustment, amount := amount, balance := cb'.balance
       , category := Category.admin_adjustment, createdAt := now }] }

/-! ## Credit service, from src/backend/src/services/credit.service.js -/

/-- Error kinds raised by the credit service. -/
inductive CreditError where
  | invalidAmount
  | insufficientCredits
deriving Repr, DecidableEq

/-- CreditService.addCredits: reject a non-positive amount before any
mutation, otherwise run the balance method. The error case returns the
untouched state, mirroring a throw before any write. -/
def serviceAddCredits (st : LedgerState) (amount : Int) (category : Category) (now : Nat) :
    Except CreditError Unit × LedgerState :=
  if amount ≤ 0 then
    (Except.error CreditError.invalidAmount, st)
  else
    (Except.ok (), addCreditsM st amount category now)

/-- CreditService.deductCredits: reject a non-positive amount, then fail
with insufficientCredits when the balance is below the amount; only then
run the balance method. Failures return the untouched state. -/
def serviceDeductCredits (st : LedgerState) (amount : Int) (category : Category) (now : Nat) :
    Except CreditError Unit × LedgerState :=
  if amount ≤ 0 then
    (Except.error CreditError.invalidAmount, st)
  else if st.cb.balance < amount then
    (Except.error CreditError.insufficientCredits, st)
  else
    match deductCreditsM st amount category now with
    | some st' => (Except.ok (), st')
    | none => (Except.error CreditError.insufficientCredits, st)

/-- CreditService.adjustCredits: reject a zero amount, otherwise run the
balance method with the signed amount. -/
def serviceAdjustCredits (st : LedgerState) (amount : Int) (now : Nat) :
    Except CreditError Unit × LedgerState :=
  if amount = 0 then
    (Except.error CreditError.invalidAmount, st)
  else
    (Except.ok (), adjustCreditsM st amount now)

/-! ## Daily login reward, from src/backend/src/services/auth.service.js -/

/-- The 20 hour cooldown in milliseconds (20 * 60 * 60 * 1000). -/
def dailyLoginCooldownMs : Nat := 20 * 60 * 60 * 1000

/-- AuthService.handleDailyLoginReward eligibility test: no prior reward,
or more than 20 hours elapsed since the last one. -/
def dailyLoginEligible (st : LedgerState) (now : Nat) : Bool :=
  match st.cb.lastDailyLoginReward with
  | none => true
  | some last => now - last > dailyLoginCooldownMs

/-- AuthService.handleDailyLoginReward: when eligible, add the configured
daily amount (default 10) under daily_login via the balance method, which
also stamps lastDailyLoginReward; otherwise leave the state untouched. -/
def handleDailyLoginReward (st : LedgerState) (now : Nat) (dailyCredits : Int := 10) :
    LedgerState :=
  if dailyLoginEligible st now then
    addCreditsM st dailyCredits Category.daily_login now
  else
    st

/-! ## Operation sequences over the ledger -/

/-- One credit operation against a user ledger, as issued through the
credit service (add, deduct, admin adjustment) or the login flow. -/
inductive CreditOp where
  | add (amount : Int) (category : Category)
  | deduct (amount : Int) (category : Category)
  | adjust (amount : Int)
  | dailyLogin (dailyCredits : Int)
deriving Repr, DecidableEq

/-- Apply one operation at a given time; a service error leaves the state
unchanged, exactly as a thrown validation error does in the source. -/
def applyOp (st : LedgerState) (op : CreditOp) (now : Nat) : LedgerState :=
  match op with
  | CreditOp.add amount category => (serviceAddCredits st amount category now).2
  | CreditOp.deduct amount category => (serviceDeductCredits st amount category now).2
  | CreditOp.adjust amount => (serviceAdjustCredits st amount now).2
  | CreditOp.dailyLogin dailyCredits => handleDailyLoginReward st now dailyCredits

/-- Run a sequence of operations with a strictly increasing clock, so that
transaction creation times reflect execution order. -/
def runOps (st : LedgerState) (now : Nat) : List CreditOp → LedgerState
  | [] => st
  | op :: rest => runOps (applyOp st op now) (now + 1) rest

/-! ## Ledger invariant (claim C1) -/

/-- The ledger bookkeeping invariant at a clock bound: the balance equals
lifetime earned minus lifetime spent, the signed transaction amounts sum
to the balance, and the log creation times are strictly increasing and
below the clock. -/
def ledgerInv (st : LedgerState) (clock : Nat) : Prop :=
  st.cb.balance = st.cb.totalEarned - st.cb.totalSpent ∧
  (st.txLog.map CreditTransaction.amount).sum = st.cb.balance ∧
  (∀ tx ∈ st.txLog, tx.createdAt < clock) ∧
  st.txLog.Pairwise (fun a b => a.createdAt < b.createdAt)

theorem ledgerInv_append (st : LedgerState) (cb' : CreditBalance)
    (tx : CreditTransaction) (c t : Nat)
    (h : ledgerInv st c) (hct : c ≤ t)
    (hbal : cb'.balance = cb'.totalEarned - cb'.totalSpent)
    (hamt : tx.amount = cb'.balance - st.cb.balance)
    (htx : tx.createdAt = t) :
    ledgerInv { cb := cb', txLog := st.txLog ++ [tx] } (t + 1) := by
  obtain ⟨h1, h2, h3, h4⟩ := h
  refine ⟨hbal, ?_, ?_, ?_⟩
  · simp only [List.map_append, List.sum_append, List.map_cons, List.map_nil,
      List.sum_cons, List.sum_nil]
    omega
  · intro a ha
    rcases List.mem_append.mp ha with hmem | hmem
    · exact lt_of_lt_of_le (h3 a hmem) (by omega)
    · simp only [List.mem_singleton] at hmem
      subst hmem
      omega
  · refine List.pairwise_append.mpr ⟨h4, List.pairwise_singleton _ _, ?_⟩
    intro a ha b hb
    simp only [List.mem_singleton] at hb
    subst hb
    exact lt_of_lt_of_le (h3 a ha) (by omega)

theorem ledgerInv_applyOp (st : LedgerState) (op : CreditOp) (c t : Nat)
    (h : ledgerInv st c) (hct : c ≤ t) :
    ledgerInv (applyOp st op t) (t + 1) := by
  have h1 : st.cb.balance = st.cb.totalEarned - st.cb.totalSpent := h.1
  have hmono : ledgerInv st (t + 1) :=
    ⟨h.1, h.2.1, fun tx htx => lt_of_lt_of_le (h.2.2.1 tx htx) (by omega), h.2.2.2⟩
  cases op with
  | add amount category =>
    simp only [applyOp, serviceAddCredits]
    split
    · exact hmono
    · exact ledgerInv_append st _ _ c t h hct (by simp only; omega) (by simp only; ring) rfl
  | deduct amount category =>
    simp only [applyOp, serviceDeductCredits]
    split
    · exact hmono
    · split
      · exact hmono
      · rename_i hpos hbal
        simp only [deductCreditsM, if_neg hbal]
        exact ledgerInv_append st _ _ c t h hct (by simp only; omega) (by simp only; ring) rfl
  | adjust amount =>
    simp only [applyOp, serviceAdjustCredits]
    split
    · exact hmono
    · refine ledgerInv_append st _ _ c t h hct ?_ (by simp only; ring) rfl
      by_cases hpos : amount > 0
      · simp only [if_pos hpos]
        omega
      · simp only [if_neg hpos]
        rw [abs_of_nonpos (by omega)]
        omega
  | dailyLogin dailyCredits =>
    simp only [applyOp, handleDailyLoginReward]
    split
    · exact ledgerInv_append st _ _ c t h hct (by simp only; omega) (by simp only; ring) rfl
    · exact hmono

theorem ledgerInv_runOps (ops : List CreditOp) (st : LedgerState) (c now : Nat)
    (h : ledgerInv st c) (hct : c ≤ now) :
    ledgerInv (runOps st now ops) (now + ops.length) := by
  induction ops generalizing st c now with
  | nil => simpa using ⟨h.1, h.2.1, fun tx htx => lt_of_lt_of_le (h.2.2.1 tx htx) (by omega),
      h.2.2.2⟩
  | cons op rest ih =>
    simp only [runOps, List.length_cons]
    have hstep := ledgerInv_applyOp st op c now h hct
    have := ih (applyOp st op now) (now + 1) (now + 1) hstep (le_refl _)
    simpa [Nat.add_assoc, Nat.add_comm, Nat.add_left_comm] using this

/-- C1: after any finite sequence of credit operations (each applied only
when its own preconditions hold, otherwise leaving the state untouched),
the stored balance equals totalEarned minus totalSpent, and the signed
amounts of the transaction log, taken in createdAt order starting from
zero, sum to the stored balance (the log is strictly increasing in
createdAt, so log order is createdAt order). -/
theorem C1_ledger_balance_invariant (ops : List CreditOp) (now : Nat) :
    (runOps initialLedger now ops).cb.balance =
      (runOps initialLedger now ops).cb.totalEarned -
        (runOps initialLedger now ops).cb.totalSpent ∧
    ((runOps initialLedger now ops).txLog.map CreditTransaction.amount).sum =
      (runOps initialLedger now ops).cb.balance ∧
    (runOps initialLedger now ops).txLog.Pairwise
      (fun a b => a.createdAt < b.createdAt) := by
  have hinit : ledgerInv initialLedger 0 := by
    refine ⟨rfl, rfl, ?_, List.Pairwise.nil⟩
    intro tx htx
    simp [initialLedger] at htx
  have h := ledgerInv_runOps ops initialLedger 0 now hinit (Nat.zero_le now)
  exact ⟨h.1, h.2.1, h.2.2.2⟩

/-- C2: for a positive amount, deductCredits fails with the
insufficient-credits error and leaves the state untouched whenever the
amount exceeds the balance; otherwise it succeeds, decrements the balance
by the amount, increments totalSpent by the amount, leaves totalEarned
alone, and appends exactly one spend transaction recording the negated
amount. -/
theorem C2_deduct_credits_spec (st : LedgerState) (a : Int) (c : Category) (t : Nat)
    (hpos : 0 < a) :
    (st.cb.balance < a →
      serviceDeductCredits st a c t = (Except.error CreditError.insufficientCredits, st)) ∧
    (a ≤ st.cb.balance →
      serviceDeductCredits st a c t =
        (Except.ok (),
          { cb :=
              { balance := st.cb.balance - a
              , totalEarned := st.cb.totalEarned
              , totalSpent := st.cb.totalSpent + a
              , lastDailyLoginReward := st.cb.lastDailyLoginReward }
          , txLog := st.txLog ++
              [{ type := TxType.spend, amount := -a, balance := st.cb.balance - a
               , category := c, createdAt := t }] })) := by
  constructor
  · intro hlt
    simp only [serviceDeductCredits, if_neg (by omega : ¬ a ≤ 0), if_pos hlt]
  · intro hle
    simp only [serviceDeductCredits, if_neg (by omega : ¬ a ≤ 0),
      if_neg (by omega : ¬ st.cb.balance < a), deductCreditsM]

/-- A concrete one-credit ledger used to witness the deduction theorem. -/
def oneCreditLedger : LedgerState :=
  { cb := { balance := 1, totalEarned := 1, totalSpent := 0, lastDailyLoginReward := none }
  , txLog := [] }

theorem C2_deduct_credits_spec_witness :
    serviceDeductCredits oneCreditLedger 2 Category.feature_usage 5 =
      (Except.error CreditError.insufficientCredits, oneCreditLedger) :=
  (C2_deduct_credits_spec oneCreditLedger 2 Category.feature_usage 5 (by decide)).1
    (by decide)

/-- C3: the daily-login reward fires exactly when there is no prior
lastDailyLoginReward timestamp or more than 20 hours (the cooldown) have
elapsed since it; when it fires it adds the configured amount (default
10) under daily_login and stamps lastDailyLoginReward with the current
time, otherwise it is a no-op that raises no error; and when the first of
two calls no more than 20 hours apart fires, the second is a no-op, so
the pair of calls credits the user exactly once. -/
theorem C3_daily_login_reward (st : LedgerState) (t1 t2 : Nat) (d : Int)
    (hcool : t2 - t1 ≤ dailyLoginCooldownMs) :
    (dailyLoginEligible st t1 = true ↔
      st.cb.lastDailyLoginReward = none ∨
        ∃ last, st.cb.lastDailyLoginReward = some last ∧
          t1 - last > dailyLoginCooldownMs) ∧
    ((fun s t => handleDailyLoginReward s t) = fun s t => handleDailyLoginReward s t 10) ∧
    (dailyLoginEligible st t1 = true →
      handleDailyLoginReward st t1 d =
        { cb :=
            { balance := st.cb.balance + d
            , totalEarned := st.cb.totalEarned + d
            , totalSpent := st.cb.totalSpent
            , lastDailyLoginReward := some t1 }
        , txLog := st.txLog ++
            [{ type := TxType.earn, amount := d, balance := st.cb.balance + d
             , category := Category.daily_login, createdAt := t1 }] }) ∧
    (dailyLoginEligible st t1 = false → handleDailyLoginReward st t1 d = st) ∧
    (dailyLoginEligible st t1 = true →
      handleDailyLoginReward (handleDailyLoginReward st t1 d) t2 d =
          handleDailyLoginReward st t1 d ∧
        (handleDailyLoginReward st t1 d).txLog.length = st.txLog.length + 1) := by
  refine ⟨?_, rfl, ?_, ?_, ?_⟩
  · unfold dailyLoginEligible
    cases h : st.cb.lastDailyLoginReward with
    | none => simp
    | some last => simp
  · intro helig
    simp [handleDailyLoginReward, if_pos helig, addCreditsM]
  · intro hnot
    simp only [handleDailyLoginReward, hnot, Bool.false_eq_true, if_false]
  · intro helig
    have hfirst : handleDailyLoginReward st t1 d =
        addCreditsM st d Category.daily_login t1 := by
      simp only [handleDailyLoginReward, if_pos helig]
    constructor
    · have hnot2 : dailyLoginEligible (addCreditsM st d Category.daily_login t1) t2
          = false := by
        simp [dailyLoginEligible, addCreditsM]
        omega
      rw [hfirst]
      simp only [handleDailyLoginReward, hnot2, Bool.false_eq_true, if_false]
    · rw [hfirst]
      simp [addCreditsM]

theorem C3_daily_login_reward_witness :
    handleDailyLoginReward (handleDailyLoginReward initialLedger 0 10) 1000 10 =
      handleDailyLoginReward initialLedger 0 10 :=
  (((C3_daily_login_reward initialLedger 0 1000 10 (by decide)).2.2.2.2) (by decide)).1

/-! ## Profile completion milestones (claim C4),
from CreditService.processProfileCompletionRewards -/

/-- One configured profile-completion milestone. -/
structure Milestone where
  percentage : Int
  credits : Int
deriving Repr, DecidableEq

/-- The configured milestone table 25:10, 50:15, 75:25, 100:50. -/
def profileMilestones : List Milestone :=
  [{ percentage := 25, credits := 10 }, { percentage := 50, credits := 15 },
   { percentage := 75, credits := 25 }, { percentage := 100, credits := 50 }]

/-- The milestone loop: for each milestone whose threshold was newly
reached (oldPercentage below it, newPercentage at or above it), award its
credits through the service; a service error aborts the remaining
milestones (the source catches and swallows it). -/
def processMilestonesAux (st : LedgerState) (oldP newP : Int) (t : Nat) :
    List Milestone → LedgerState
  | [] => st
  | m :: rest =>
    if oldP < m.percentage ∧ newP ≥ m.percentage then
      match serviceAddCredits st m.credits Category.profile_completion t with
      | (Except.ok _, st') => processMilestonesAux st' oldP newP (t + 1) rest
      | (Except.error _, _) => st
    else
      processMilestonesAux st oldP newP (t + 1) rest

/-- CreditService.processProfileCompletionRewards over the configured
milestone table. -/
def processProfileCompletionRewards (st : LedgerState) (oldP newP : Int) (t : Nat) :
    LedgerState :=
  processMilestonesAux st oldP newP t profileMilestones

theorem processMilestonesAux_txLog (ms : List Milestone) (st : LedgerState)
    (oldP newP : Int) (t : Nat) (hpos : ∀ m ∈ ms, 0 < m.credits) :
    (processMilestonesAux st oldP newP t ms).txLog.map
        (fun tx => (tx.type, tx.category, tx.amount))
      = st.txLog.map (fun tx => (tx.type, tx.category, tx.amount)) ++
        (ms.filter (fun m => oldP < m.percentage ∧ newP ≥ m.percentage)).map
          (fun m => (TxType.earn, Category.profile_completion, m.credits)) := by
  induction ms generalizing st t with
  | nil => simp [processMilestonesAux]
  | cons m rest ih =>
    have hm : 0 < m.credits := hpos m (by simp)
    have hrest : ∀ m' ∈ rest, 0 < m'.credits := fun m' hm' => hpos m' (by simp [hm'])
    by_cases hc : oldP < m.percentage ∧ newP ≥ m.percentage
    · rw [processMilestonesAux, if_pos hc]
      simp only [serviceAddCredits, if_neg (by omega : ¬ m.credits ≤ 0)]
      rw [ih _ _ hrest]
      simp [addCreditsM, List.filter_cons, hc]
    · rw [processMilestonesAux, if_neg hc]
      rw [ih _ _ hrest]
      simp [List.filter_cons, hc]

/-- C4: the profile-completion reward awards exactly the milestones whose
threshold lies strictly above oldPercentage and at or below
newPercentage, appending one earn transaction of the milestone amount
under profile_completion per awarded milestone; concretely, the call with
(20, 60) awards the 25 and 50 point milestones for 25 credits total, and
any call with (60, 60) changes nothing at all. -/
theorem C4_profile_completion_milestones (st : LedgerState) (oldP newP : Int) (t : Nat) :
    ((processProfileCompletionRewards st oldP newP t).txLog.map
        (fun tx => (tx.type, tx.category, tx.amount))
      = st.txLog.map (fun tx => (tx.type, tx.category, tx.amount)) ++
        (profileMilestones.filter
            (fun m => oldP < m.percentage ∧ newP ≥ m.percentage)).map
          (fun m => (TxType.earn, Category.profile_completion, m.credits))) ∧
    ((processProfileCompletionRewards initialLedger 20 60 0).txLog.map
        (fun tx => (tx.category, tx.amount)) =
      [(Category.profile_completion, 10), (Category.profile_completion, 15)]) ∧
    (processProfileCompletionRewards initialLedger 20 60 0).cb.balance = 25 ∧
    processProfileCompletionRewards st 60 60 t = st := by
  refine ⟨?_, by decide, by decide, ?_⟩
  · exact processMilestonesAux_txLog profileMilestones st oldP newP t (by decide)
  · simp [processProfileCompletionRewards, processMilestonesAux, profileMilestones]

/-! ## Content data model, from src/backend/src/models/content.model.js

The open metadata bag (Schema.Types.Mixed) is not modelled; no claim
inspects it. -/

/-- Content sources, from the contentSchema source enum. -/
inductive Source where
  | twitter
  | reddit
  | linkedin
deriving Repr, DecidableEq

/-- The engagement subdocument. -/
structure Engagement where
  likes : Nat
  comments : Nat
  shares : Nat
  totalEngagement : Nat
deriving Repr, DecidableEq

/-- The shape a normalizer emits, before the store assigns a document id
and schema defaults. contentType is a raw string here because the
normalizers write arbitrary strings into it; the schema constrains it
separately (see contentTypeEnum). -/
structure NormalizedContent where
  source : Source
  sourceId : String
  sourceUsername : String
  sourceName : String
  contentType : String
  title : Option String
  text : String
  htmlContent : Option String
  mediaUrls : List String
  mediaTypes : List String
  categories : List String
  url : String
  engagement : Engagement
  contentCreatedAt : Nat
  cacheExpiration : Nat
deriving Repr, DecidableEq

/-- A stored Content document: the normalized fields plus the document id
and the isInappropriate moderation flag (schema default false). -/
structure ContentDoc where
  id : Nat
  source : Source
  sourceId : String
  sourceUsername : String
  sourceName : String
  contentType : String
  title : Option String
  text : String
  htmlContent : Option String
  mediaUrls : List String
  mediaTypes : List String
  categories : List String
  url : String
  engagement : Engagement
  contentCreatedAt : Nat
  cacheExpiration : Nat
  isInappropriate : Bool
deriving Repr, DecidableEq

/-- The contentSchema contentType enum: the only values the schema lets
be stored. -/
def contentTypeEnum : List String := ["post", "tweet", "article", "comment", "other"]

/-- new Content(post): copy the normalized fields, take the given fresh
document id, and apply the schema default isInappropriate = false. -/
def insertContent (post : NormalizedContent) (newId : Nat) : ContentDoc :=
  { id := newId
  , source := post.source
  , sourceId := post.sourceId
  , sourceUsername := post.sourceUsername
  , sourceName := post.sourceName
  , contentType := post.contentType
  , title := post.title
  , text := post.text
  , htmlContent := post.htmlContent
  , mediaUrls := post.mediaUrls
  , mediaTypes := post.mediaTypes
  , categories := post.categories
  , url := post.url
  , engagement := post.engagement
  , contentCreatedAt := post.contentCreatedAt
  , cacheExpiration := post.cacheExpiration
  , isInappropriate := false }

/-- Content.findOne on the (source, sourceId) key. -/
def findBySourceId (store : List ContentDoc) (src : Source) (sid : String) :
    Option ContentDoc :=
  store.find? (fun c => c.source == src && c.sourceId == sid)

/-- contentSchema.methods.updateEngagementMetrics: each field is written
as (argument || current value) — a JavaScript falsy argument, in
particular 0, keeps the currently stored value — and totalEngagement is
recomputed as the sum of the three resulting fields. -/
def updateEngagementMetrics (c : ContentDoc) (likes comments shares : Nat) : ContentDoc :=
  let l := if likes = 0 then c.engagement.likes else likes
  let cm := if comments = 0 then c.engagement.comments else comments
  let s := if shares = 0 then c.engagement.shares else shares
  { c with engagement :=
      { likes := l, comments := cm, shares := s, totalEngagement := l + cm + s } }

/-- contentSchema.methods.refreshCache: push cacheExpiration to now plus
the given number of hours (default 24). -/
def refreshCache (c : ContentDoc) (now : Nat) (expirationHours : Nat := 24) : ContentDoc :=
  { c with cacheExpiration := now + expirationHours * 60 * 60 * 1000 }

/-- One iteration of RedditService.savePostsToDatabase (and of the
identical TwitterService.saveTweetsToDatabase): look up by (source,
sourceId); when present, update engagement metrics and refresh the cache
on that document — the (source, sourceId) unique index makes the match
unique; when absent, insert a fresh document. The insert runs the
mongoose schema validation: a record whose contentType is outside the
contentSchema enum throws, and the per-post catch swallows the error, so
nothing is inserted for it (the update path only rewrites engagement
numbers on an already valid document, so its save revalidates
successfully). -/
def saveContentStep (src : Source) (store : List ContentDoc) (post : NormalizedContent)
    (newId now : Nat) : List ContentDoc :=
  match findBySourceId store src post.sourceId with
  | some _ =>
    store.map (fun c =>
      if c.source == src && c.sourceId == post.sourceId then
        refreshCache
          (updateEngagementMetrics c post.engagement.likes post.engagement.comments
            post.engagement.shares) now
      else c)
  | none =>
    if contentTypeEnum.contains post.contentType then
      store ++ [insertContent post newId]
    else
      store

/-! ## Reddit normalizer, from RedditService.normalizePosts in
src/backend/src/services/user.service.js -/

/-- post.media.reddit_video. -/
structure RedditVideo where
  fallback_url : String
deriving Repr, DecidableEq

/-- post.media. -/
structure RedditMedia where
  reddit_video : Option RedditVideo
deriving Repr, DecidableEq

/-- One entry of post.gallery_data.items. -/
structure GalleryItem where
  media_id : String
deriving Repr, DecidableEq

/-- post.gallery_data. -/
structure GalleryData where
  items : List GalleryItem
deriving Repr, DecidableEq

/-- The s field of one post.media_metadata entry. -/
structure MediaMetaSource where
  u : Option String
deriving Repr, DecidableEq

/-- One post.media_metadata entry: the source descriptor and the mime
string m. -/
structure MediaMetaItem where
  s : Option MediaMetaSource
  m : String
deriving Repr, DecidableEq

/-- post.author. -/
structure RedditAuthor where
  name : String
deriving Repr, DecidableEq

/-- post.subreddit. -/
structure SubredditRef where
  display_name : String
deriving Repr, DecidableEq

/-- The fields of a raw Reddit API post the normalizer reads.
media_metadata is an id-keyed object, modelled as an association list. -/
structure RedditPost where
  id : String
  author : RedditAuthor
  is_self : Bool
  is_video : Bool
  post_hint : Option String
  title : String
  selftext : String
  selftext_html : Option String
  ups : Nat
  num_comments : Nat
  permalink : String
  created_utc : Nat
  subreddit : SubredditRef
  link_flair_text : Option String
  url : Option String
  media : Option RedditMedia
  gallery_data : Option GalleryData
  media_metadata : Option (List (String × MediaMetaItem))
deriving Repr, DecidableEq

/-- The contentType assignment of normalizePosts: post by default, and
text / video / image / link for self, video, image-hinted and link-hinted
posts respectively. -/
def redditContentType (post : RedditPost) : String :=
  if post.is_self then "text"
  else if post.is_video then "video"
  else if post.post_hint = some "image" then "image"
  else if post.post_hint = some "link" then "link"
  else "post"

/-- The case-insensitive image-extension test on post.url. -/
def hasImageExtension (url : String) : Bool :=
  let l := url.toLower
  l.endsWith ".jpg" || l.endsWith ".jpeg" || l.endsWith ".png" || l.endsWith ".gif"

/-- The m.split slash head with the image fallback for an empty head. -/
def mediaTypeOfMime (m : String) : String :=
  let t := (m.splitOn "/").headD ""
  if t = "" then "image" else t

/-- The media extraction of normalizePosts: inside an if (post.url)
guard, prefer the native video fallback url, else the post url when
image-hinted or image-suffixed, else walk the gallery items through
media_metadata. -/
def extractRedditMedia (post : RedditPost) : List String × List String :=
  match post.url with
  | none => ([], [])
  | some u =>
    match (if post.is_video then post.media.bind (fun m => m.reddit_video) else none) with
    | some v => ([v.fallback_url], ["video"])
    | none =>
      if post.post_hint = some "image" ∨ hasImageExtension u then
        ([u], ["image"])
      else
        match post.gallery_data, post.media_metadata with
        | some g, some mm =>
          g.items.foldl (fun acc item =>
            match (mm.find? (fun kv => kv.1 == item.media_id)).map Prod.snd with
            | some mi =>
              match mi.s with
              | some src =>
                match src.u with
                | some uu => (acc.1 ++ [uu], acc.2 ++ [mediaTypeOfMime mi.m])
                | none => acc
              | none => acc
            | none => acc) ([], [])
        | _, _ => ([], [])

/-- The stopword list of extractCategories. -/
def titleStopwords : List String :=
  ["this", "that", "what", "when", "where", "which", "while", "with"]

/-- The title cleanup of extractCategories: lower-case, drop every
character that is neither a word character nor whitespace. -/
def cleanTitle (title : String) : String :=
  String.mk ((title.toLower).data.filter
    (fun ch => ch.isAlphanum || ch = '_' || ch.isWhitespace))

/-- RedditService.extractCategories: the flair when present and truthy,
then the three longest title words of length above 3 that are not
stopwords (stable sort by descending length, as Array.prototype.sort with
a length comparator). -/
def extractCategories (post : RedditPost) : List String :=
  let flair :=
    match post.link_flair_text with
    | some f => if f = "" then [] else [f]
    | none => []
  let titleWords := ((cleanTitle post.title).split (fun ch => ch.isWhitespace)).filter
    (fun w => w.length > 3 && !(titleStopwords.contains w))
  flair ++ (titleWords.mergeSort (fun a b => b.length ≤ a.length)).take 3

/-- The JavaScript string-or chain display_name or subredditName or a
literal, where an absent option and an empty string are both falsy. -/
def firstTruthyString (a : String) (b : Option String) (dflt : String) : String :=
  if a ≠ "" then a
  else
    match b with
    | some s => if s ≠ "" then s else dflt
    | none => dflt

/-- The body of the normalizePosts loop for one post. -/
def normalizeRedditPost (post : RedditPost) (subredditName : Option String) (now : Nat) :
    NormalizedContent :=
  let media := extractRedditMedia post
  { source := Source.reddit
  , sourceId := post.id
  , sourceUsername := post.author.name
  , sourceName := post.author.name
  , contentType := redditContentType post
  , title := some post.title
  , text := post.selftext
  , htmlContent := post.selftext_html
  , mediaUrls := media.1
  , mediaTypes := media.2
  , categories :=
      firstTruthyString post.subreddit.display_name subredditName "reddit" ::
        extractCategories post
  , url := "https://www.reddit.com" ++ post.permalink
  , engagement :=
      { likes := post.ups
      , comments := post.num_comments
      , shares := 0
      , totalEngagement := post.ups + post.num_comments }
  , contentCreatedAt := post.created_utc * 1000
  , cacheExpiration := now + 24 * 60 * 60 * 1000 }

/-- RedditService.normalizePosts: skip posts whose author is [deleted],
normalize the rest in order. -/
def normalizePosts (posts : List RedditPost) (subredditName : Option String) (now : Nat) :
    List NormalizedContent :=
  (posts.filter (fun p => p.author.name != "[deleted]")).map
    (fun p => normalizeRedditPost p subredditName now)

/-- RedditService.fetchSubredditPosts: for each subreddit fetch its posts
(the snoowrap call, the sort switch and its options are the external
fetch collaborator here), apply the optional filter, normalize, and
append; a per-subreddit failure is logged and the loop continues with the
next subreddit. -/
def fetchSubredditPosts (fetch : String → Except String (List RedditPost))
    (subreddits : List String) (filter : Option (RedditPost → Bool)) (now : Nat) :
    List NormalizedContent :=
  match subreddits with
  | [] => []
  | s :: rest =>
    match fetch s with
    | Except.ok posts =>
      let filteredPosts :=
        match filter with
        | some f => posts.filter f
        | none => posts
      normalizePosts filteredPosts (some s) now ++ fetchSubredditPosts fetch rest filter now
    | Except.error _ => fetchSubredditPosts fetch rest filter now

/-! ## Twitter normalizer, from TwitterService.normalizeTweets -/

/-- One includes.users entry. -/
structure TwitterUser where
  id : String
  username : String
  name : String
  profile_image_url : Option String
deriving Repr, DecidableEq

/-- tweet.public_metrics. -/
structure PublicMetrics where
  like_count : Nat
  reply_count : Nat
  retweet_count : Nat
  quote_count : Nat
deriving Repr, DecidableEq

/-- One tweet.entities.hashtags entry. -/
structure TweetHashtag where
  tag : String
deriving Repr, DecidableEq

/-- tweet.entities. -/
structure TweetEntities where
  hashtags : Option (List TweetHashtag)
deriving Repr, DecidableEq

/-- tweet.attachments. -/
structure TweetAttachments where
  media_keys : List String
deriving Repr, DecidableEq

/-- One includes.media entry. -/
structure TweetMedia where
  media_key : String
  url : Option String
  preview_image_url : Option String
  type : Option String
deriving Repr, DecidableEq

/-- The fields of one raw tweet the normalizer reads; created_at is the
already parsed timestamp in milliseconds. -/
structure Tweet where
  id : String
  author_id : String
  text : String
  created_at : Nat
  public_metrics : Option PublicMetrics
  entities : Option TweetEntities
  attachments : Option TweetAttachments
deriving Repr, DecidableEq

/-- The includes block of a Twitter API response. -/
structure TweetIncludes where
  users : Option (List TwitterUser)
  media : Option (List TweetMedia)
deriving Repr, DecidableEq

/-- A Twitter API timeline/search response. -/
structure TweetsResponse where
  data : Option (List Tweet)
  includes : Option TweetIncludes
deriving Repr, DecidableEq

/-- The getUserData helper: find the author among includes.users. -/
def getUserData (resp : TweetsResponse) (authorId : String) : Option TwitterUser :=
  (resp.includes.bind (fun i => i.users)).bind
    (fun users => users.find? (fun u => u.id == authorId))

/-- The getMediaData helper: resolve each media key against
includes.media, dropping unresolved keys. -/
def getMediaData (resp : TweetsResponse) (mediaKeys : List String) : List TweetMedia :=
  match resp.includes.bind (fun i => i.media) with
  | none => []
  | some ms => mediaKeys.filterMap (fun key => ms.find? (fun m => m.media_key == key))

/-- The JavaScript a || b over two optional strings, where an absent
value and the empty string are falsy. -/
def jsStringOr (a b : Option String) : Option String :=
  match a with
  | some s => if s = "" then b else some s
  | none => b

/-- The m.type || image fallback. -/
def jsStringOrDefault (a : Option String) (dflt : String) : String :=
  match jsStringOr a (some dflt) with
  | some s => s
  | none => dflt

/-- The media url and type accumulation of normalizeTweets: keep a media
entry when url or preview_image_url is truthy, with type defaulting to
image. -/
def tweetMediaLists (media : List TweetMedia) : List String × List String :=
  media.foldl (fun acc m =>
    match jsStringOr m.url m.preview_image_url with
    | some u => (acc.1 ++ [u], acc.2 ++ [jsStringOrDefault m.type "image"])
    | none => acc) ([], [])

/-- The body of the normalizeTweets loop for one tweet whose author was
resolved. -/
def normalizeTweet (tweet : Tweet) (author : TwitterUser) (resp : TweetsResponse)
    (now : Nat) : NormalizedContent :=
  let mediaKeys := (tweet.attachments.map (fun a => a.media_keys)).getD []
  let media := getMediaData resp mediaKeys
  let lists := tweetMediaLists media
  let hashtags :=
    ((tweet.entities.bind (fun e => e.hashtags)).map
      (fun hs => hs.map (fun h => h.tag))).getD []
  { source := Source.twitter
  , sourceId := tweet.id
  , sourceUsername := author.username
  , sourceName := author.name
  , contentType := "tweet"
  , title := none
  , text := tweet.text
  , htmlContent := none
  , mediaUrls := lists.1
  , mediaTypes := lists.2
  , categories := hashtags
  , url := "https://twitter.com/" ++ author.username ++ "/status/" ++ tweet.id
  , engagement :=
      { likes := ((tweet.public_metrics.map (fun pm => pm.like_count))).getD 0
      , comments := ((tweet.public_metrics.map (fun pm => pm.reply_count))).getD 0
      , shares := ((tweet.public_metrics.map (fun pm => pm.retweet_count))).getD 0
      , totalEngagement :=
          ((tweet.public_metrics.map (fun pm => pm.like_count))).getD 0 +
          ((tweet.public_metrics.map (fun pm => pm.reply_count))).getD 0 +
          ((tweet.public_metrics.map (fun pm => pm.retweet_count))).getD 0 }
  , contentCreatedAt := tweet.created_at
  , cacheExpiration := now + 24 * 60 * 60 * 1000 }

/-- TwitterService.normalizeTweets: walk response.data when it is an
array, skipping tweets whose author is not in includes.users. -/
def normalizeTweets (resp : TweetsResponse) (now : Nat) : List NormalizedContent :=
  match resp.data with
  | none => []
  | some tweets =>
    tweets.filterMap (fun tweet =>
      (getUserData resp tweet.author_id).map
        (fun author => normalizeTweet tweet author resp now))

/-- TwitterService.fetchTweetsFromUsers: per handle, resolve the user id
(skipping handles the lookup does not find), fetch the timeline, and
normalize when the response has data; any per-handle error is logged and
the loop continues with the next handle. -/
def fetchTweetsFromUsers (lookupUser : String → Except String (Option TwitterUser))
    (fetchTimeline : String → Except String TweetsResponse)
    (handles : List String) (now : Nat) : List NormalizedContent :=
  match handles with
  | [] => []
  | h :: rest =>
    match lookupUser h with
    | Except.error _ => fetchTweetsFromUsers lookupUser fetchTimeline rest now
    | Except.ok none => fetchTweetsFromUsers lookupUser fetchTimeline rest now
    | Except.ok (some user) =>
      match fetchTimeline user.id with
      | Except.error _ => fetchTweetsFromUsers lookupUser fetchTimeline rest now
      | Except.ok resp =>
        match resp.data with
        | some _ =>
          normalizeTweets resp now ++ fetchTweetsFromUsers lookupUser fetchTimeline rest now
        | none => fetchTweetsFromUsers lookupUser fetchTimeline rest now

/-! ## Dedup upsert behaviour (claim C5) -/

/-- A first fetch of reddit post abc123: 5 likes, 3 comments. -/
def c5PostFirst : NormalizedContent :=
  { source := Source.reddit
  , sourceId := "abc123"
  , sourceUsername := "alice"
  , sourceName := "alice"
  , contentType := "post"
  , title := some "Example title"
  , text := "body"
  , htmlContent := none
  , mediaUrls := []
  , mediaTypes := []
  , categories := ["test"]
  , url := "https://www.reddit.com/r/test/abc123"
  , engagement := { likes := 5, comments := 3, shares := 0, totalEngagement := 8 }
  , contentCreatedAt := 1700000000000
  , cacheExpiration := 1000 + 24 * 60 * 60 * 1000 }

/-- A second fetch of the same post, now showing 0 likes and 7 comments. -/
def c5PostSecond : NormalizedContent :=
  { c5PostFirst with
      engagement := { likes := 0, comments := 7, shares := 0, totalEngagement := 7 }
    , cacheExpiration := 2000 + 24 * 60 * 60 * 1000 }

/-- The store after ingesting the two fetches in order. -/
def c5StoreAfterTwo : List ContentDoc :=
  saveContentStep Source.reddit
    (saveContentStep Source.reddit [] c5PostFirst 1 1000) c5PostSecond 2 2000

/-- C5 fails as stated: after ingesting the same (reddit, abc123) twice
there is exactly one row, but its likes count is the first fetch's 5, not
the second fetch's 0 — updateEngagementMetrics keeps the stored value
when the new value is 0 (JavaScript falsy), so the row's engagement does
not equal the second call's fetched values. -/
theorem C5_content_dedup_counterexample :
    c5StoreAfterTwo.length = 1 ∧
    c5StoreAfterTwo.map (fun c => c.engagement.likes) = [5] ∧
    c5PostSecond.engagement.likes = 0 ∧
    ¬ (c5StoreAfterTwo.map (fun c => c.engagement.likes) =
        [c5PostSecond.engagement.likes]) := by
  decide

/-- C5 as amended: ingesting the same (source, sourceId) twice into a
store without that key, with a first record that passes the schema
validation (its contentType lies in the contentSchema enum, so the
insert is not skipped), leaves exactly one new row; its engagement
fields are overwritten by the second call's values only where those
values are nonzero, a zero fetched value keeping the previously stored
one, with totalEngagement the sum of the three resulting fields; its
cacheExpiration is 24h from the second call (later than the first
ingestion's expiry whenever that lies before it); and its descriptive
fields (title, text, url) stay as captured on first insert. -/
theorem C5_content_dedup_refresh (store : List ContentDoc) (p1 p2 : NormalizedContent)
    (src : Source) (id1 id2 t1 t2 : Nat)
    (habsent : findBySourceId store src p1.sourceId = none)
    (hsrc1 : p1.source = src)
    (hsid : p2.sourceId = p1.sourceId)
    (hvalid : contentTypeEnum.contains p1.contentType = true)
    (hcache : p1.cacheExpiration < t2 + 24 * 60 * 60 * 1000) :
    saveContentStep src (saveContentStep src store p1 id1 t1) p2 id2 t2 =
      store ++ [refreshCache (updateEngagementMetrics (insertContent p1 id1)
        p2.engagement.likes p2.engagement.comments p2.engagement.shares) t2] ∧
    (refreshCache (updateEngagementMetrics (insertContent p1 id1)
        p2.engagement.likes p2.engagement.comments p2.engagement.shares) t2).title
      = p1.title ∧
    (refreshCache (updateEngagementMetrics (insertContent p1 id1)
        p2.engagement.likes p2.engagement.comments p2.engagement.shares) t2).text
      = p1.text ∧
    (refreshCache (updateEngagementMetrics (insertContent p1 id1)
        p2.engagement.likes p2.engagement.comments p2.engagement.shares) t2).url
      = p1.url ∧
    (refreshCache (updateEngagementMetrics (insertContent p1 id1)
        p2.engagement.likes p2.engagement.comments p2.engagement.shares) t2).engagement
      = { likes := if p2.engagement.likes = 0 then p1.engagement.likes
            else p2.engagement.likes
        , comments := if p2.engagement.comments = 0 then p1.engagement.comments
            else p2.engagement.comments
        , shares := if p2.engagement.shares = 0 then p1.engagement.shares
            else p2.engagement.shares
        , totalEngagement :=
            (if p2.engagement.likes = 0 then p1.engagement.likes
              else p2.engagement.likes) +
            (if p2.engagement.comments = 0 then p1.engagement.comments
              else p2.engagement.comments) +
            (if p2.engagement.shares = 0 then p1.engagement.shares
              else p2.engagement.shares) } ∧
    (refreshCache (updateEngagementMetrics (insertContent p1 id1)
        p2.engagement.likes p2.engagement.comments p2.engagement.shares)
        t2).cacheExpiration = t2 + 24 * 60 * 60 * 1000 ∧
    (insertContent p1 id1).cacheExpiration <
      (refreshCache (updateEngagementMetrics (insertContent p1 id1)
        p2.engagement.likes p2.engagement.comments p2.engagement.shares)
        t2).cacheExpiration := by
  have hkey : (fun c : ContentDoc => c.source == src && c.sourceId == p1.sourceId)
      (insertContent p1 id1) = true := by
    simp [insertContent, hsrc1]
  have hstep1 : saveContentStep src store p1 id1 t1 = store ++ [insertContent p1 id1] := by
    unfold saveContentStep
    rw [habsent]
    rw [if_pos hvalid]
  have hnomatch : ∀ c ∈ store,
      (c.source == src && c.sourceId == p1.sourceId) = false := by
    intro c hcmem
    have := List.find?_eq_none.mp habsent c hcmem
    simpa using this
  have hfind2 : findBySourceId (store ++ [insertContent p1 id1]) src p2.sourceId =
      some (insertContent p1 id1) := by
    rw [hsid]
    unfold findBySourceId
    rw [List.find?_append]
    unfold findBySourceId at habsent
    rw [habsent]
    simp [List.find?, hkey]
  refine ⟨?_, rfl, rfl, rfl, rfl, rfl, ?_⟩
  · rw [hstep1]
    unfold saveContentStep
    rw [hfind2, hsid]
    simp only [List.map_append, List.map_cons, List.map_nil]
    congr 1
    · conv_rhs => rw [(List.map_id store).symm]
      apply List.map_congr_left
      intro c hcmem
      rw [hnomatch c hcmem]
      simp
    · rw [if_pos hkey]
  · simp only [refreshCache, updateEngagementMetrics, insertContent]
    exact hcache

theorem C5_content_dedup_refresh_witness :
    saveContentStep Source.reddit
        (saveContentStep Source.reddit [] c5PostFirst 1 1000) c5PostSecond 2 2000 =
      [refreshCache (updateEngagementMetrics (insertContent c5PostFirst 1)
        c5PostSecond.engagement.likes c5PostSecond.engagement.comments
        c5PostSecond.engagement.shares) 2000] :=
  (C5_content_dedup_refresh [] c5PostFirst c5PostSecond Source.reddit 1 2 1000 2000
    rfl rfl rfl (by decide) (by decide)).1

/-! ## Normalizer contentType versus the schema enum (claim C6) -/

/-- A plain Reddit link-style post used as the base example. -/
def basePost : RedditPost :=
  { id := "abc123"
  , author := { name := "alice" }
  , is_self := false
  , is_video := false
  , post_hint := none
  , title := "Example title"
  , selftext := ""
  , selftext_html := none
  , ups := 1
  , num_comments := 2
  , permalink := "/r/test/comments/abc123"
  , created_utc := 1700000000
  , subreddit := { display_name := "test" }
  , link_flair_text := none
  , url := none
  , media := none
  , gallery_data := none
  , media_metadata := none }

/-- C6 fails on the code: the Reddit normalizer writes contentType text /
video / image / link for self, video, image-hinted and link-hinted posts,
none of which belong to the contentSchema enum {post, tweet, article,
comment, other} — the very records the normalizer emits for those posts
violate the schema constraint the model itself declares. -/
theorem C6_contentType_outside_schema_enum :
    (normalizeRedditPost { basePost with is_self := true } none 0).contentType = "text" ∧
    (normalizeRedditPost { basePost with is_video := true } none 0).contentType = "video" ∧
    (normalizeRedditPost { basePost with post_hint := some "image" } none 0).contentType
      = "image" ∧
    (normalizeRedditPost { basePost with post_hint := some "link" } none 0).contentType
      = "link" ∧
    contentTypeEnum.contains "text" = false ∧
    contentTypeEnum.contains "video" = false ∧
    contentTypeEnum.contains "image" = false ∧
    contentTypeEnum.contains "link" = false := by
  refine ⟨rfl, rfl, rfl, rfl, ?_, ?_, ?_, ?_⟩ <;> decide

/-! ## Batch fetch partial-failure policy (claim C9) -/

/-- C9: a per-target failure never aborts a batch fetch. Each batch
function equals the concatenation over targets of the normalized results
of that target alone — an erroring target contributes nothing and every
other target is still processed — and a target known to error can be
dropped from the front of the list without changing the outcome. The
batch functions are total: no per-target failure surfaces as a failure of
the whole refresh. -/
theorem C9_batch_continues_on_failure
    (fetch : String → Except String (List RedditPost))
    (filter : Option (RedditPost → Bool))
    (lookupUser : String → Except String (Option TwitterUser))
    (fetchTimeline : String → Except String TweetsResponse)
    (subs handles : List String) (now : Nat)
    (badSub badHandle e1 e2 : String)
    (hbadSub : fetch badSub = Except.error e1)
    (hbadHandle : lookupUser badHandle = Except.error e2) :
    (fetchSubredditPosts fetch subs filter now =
      (subs.map (fun s =>
        match fetch s with
        | Except.ok posts =>
          normalizePosts
            (match filter with
             | some f => posts.filter f
             | none => posts) (some s) now
        | Except.error _ => [])).flatten) ∧
    (fetchSubredditPosts fetch (badSub :: subs) filter now =
      fetchSubredditPosts fetch subs filter now) ∧
    (fetchTweetsFromUsers lookupUser fetchTimeline handles now =
      (handles.map (fun h =>
        match lookupUser h with
        | Except.error _ => []
        | Except.ok none => []
        | Except.ok (some user) =>
          match fetchTimeline user.id with
          | Except.error _ => []
          | Except.ok resp =>
            match resp.data with
            | some _ => normalizeTweets resp now
            | none => [])).flatten) ∧
    (fetchTweetsFromUsers lookupUser fetchTimeline (badHandle :: handles) now =
      fetchTweetsFromUsers lookupUser fetchTimeline handles now) := by
  refine ⟨?_, ?_, ?_, ?_⟩
  · induction subs with
    | nil => simp [fetchSubredditPosts]
    | cons s rest ih =>
      cases hfs : fetch s with
      | ok posts => simp [fetchSubredditPosts, hfs, ih]
      | error err => simp [fetchSubredditPosts, hfs, ih]
  · rw [fetchSubredditPosts, hbadSub]
  · induction handles with
    | nil => simp [fetchTweetsFromUsers]
    | cons h rest ih =>
      cases hlu : lookupUser h with
      | error err => simp [fetchTweetsFromUsers, hlu, ih]
      | ok mu =>
        cases mu with
        | none => simp [fetchTweetsFromUsers, hlu, ih]
        | some user =>
          cases hft : fetchTimeline user.id with
          | error err => simp [fetchTweetsFromUsers, hlu, hft, ih]
          | ok resp =>
            cases hd : resp.data with
            | none => simp [fetchTweetsFromUsers, hlu, hft, hd, ih]
            | some tweets => simp [fetchTweetsFromUsers, hlu, hft, hd, ih]
  · rw [fetchTweetsFromUsers, hbadHandle]

/-- A concrete fetch map erroring exactly on badsub. -/
def c9Fetch : String → Except String (List RedditPost) :=
  fun s => if s = "badsub" then Except.error "boom" else Except.ok []

/-- A concrete user lookup erroring exactly on badhandle. -/
def c9Lookup : String → Except String (Option TwitterUser) :=
  fun h => if h = "badhandle" then Except.error "boom" else Except.ok none

/-- A concrete timeline fetch returning an empty response. -/
def c9Timeline : String → Except String TweetsResponse :=
  fun _ => Except.ok { data := none, includes := none }

theorem C9_batch_continues_on_failure_witness :
    fetchSubredditPosts c9Fetch ["badsub", "oksub"] none 0 =
      fetchSubredditPosts c9Fetch ["oksub"] none 0 :=
  (C9_batch_continues_on_failure c9Fetch none c9Lookup c9Timeline
    ["oksub"] [] 0 "badsub" "badhandle" "boom" "boom" rfl rfl).2.1

/-! ## Feed service, from the FeedService class in
src/backend/src/services (reports, saved content, feed query) -/

/-- Error kinds raised by the feed service. -/
inductive FeedError where
  | contentNotFound
  | duplicateReport
  | savedContentNotFound
deriving Repr, DecidableEq

/-- One Report document, from src/backend/src/models/report.model.js;
status takes the schema default pending on creation. -/
structure ReportDoc where
  reporter : Nat
  content : Nat
  reason : String
  description : String
  status : String
deriving Repr, DecidableEq

/-- new Report(...) with the schema default status. -/
def newReport (userId contentId : Nat) (reason description : String) : ReportDoc :=
  { reporter := userId, content := contentId, reason := reason
  , description := description, status := "pending" }

/-- FeedService.reportContent: reject when the content does not exist,
reject as a duplicate when this reporter already reported this content,
otherwise append a fresh pending report. Failures return the untouched
report collection, mirroring a throw before any write. -/
def reportContent (contents : List ContentDoc) (reports : List ReportDoc)
    (userId contentId : Nat) (reason description : String) :
    Except FeedError Unit × List ReportDoc :=
  match contents.find? (fun c => c.id == contentId) with
  | none => (Except.error FeedError.contentNotFound, reports)
  | some _ =>
    match reports.find? (fun r => r.reporter == userId && r.content == contentId) with
    | some _ => (Except.error FeedError.duplicateReport, reports)
    | none => (Except.ok (), reports ++ [newReport userId contentId reason description])

/-- One SavedContent document, from
src/backend/src/models/savedContent.model.js. -/
structure SavedDoc where
  user : Nat
  content : Nat
  folder : String
  tags : List String
  notes : String
deriving Repr, DecidableEq

/-- new SavedContent({user, content, folder, tags, notes}). -/
def newSavedDoc (userId contentId : Nat) (folder : String) (tags : List String)
    (notes : String) : SavedDoc :=
  { user := userId, content := contentId, folder := folder, tags := tags, notes := notes }

/-- The interaction reward table of
CreditService.awardContentInteractionCredits: save 2, share 5, comment 3,
anything else 1. -/
def interactionReward (interactionType : String) : Int :=
  if interactionType = "save" then 2
  else if interactionType = "share" then 5
  else if interactionType = "comment" then 3
  else 1

/-- CreditService.awardContentInteractionCredits: add the looked-up
reward under content_interaction through the service. -/
def awardContentInteractionCredits (ledger : LedgerState) (interactionType : String)
    (now : Nat) : LedgerState :=
  (serviceAddCredits ledger (interactionReward interactionType)
    Category.content_interaction now).2

/-- FeedService.saveContent: reject when the content does not exist; when
this user already saved this content, overwrite folder, tags and notes on
the existing document (unique per (user, content) by the schema index)
and leave the ledger untouched; otherwise append a fresh SavedContent
document and award the save interaction credits. -/
def saveContent (contents : List ContentDoc) (saved : List SavedDoc)
    (ledger : LedgerState) (userId contentId : Nat) (folder : String)
    (tags : List String) (notes : String) (now : Nat) :
    Except FeedError Unit × List SavedDoc × LedgerState :=
  match contents.find? (fun c => c.id == contentId) with
  | none => (Except.error FeedError.contentNotFound, saved, ledger)
  | some _ =>
    match saved.find? (fun s => s.user == userId && s.content == contentId) with
    | some _ =>
      (Except.ok (),
        saved.map (fun s =>
          if s.user == userId && s.content == contentId then
            { s with folder := folder, tags := tags, notes := notes }
          else s),
        ledger)
    | none =>
      (Except.ok (),
        saved ++ [newSavedDoc userId contentId folder tags notes],
        awardContentInteractionCredits ledger "save" now)

/-- The two sort orders of FeedService.getUserFeed. -/
inductive FeedSortBy where
  | recent
  | popular
deriving Repr, DecidableEq

/-- The value getUserFeed returns: items annotated with the per-user
isSaved flag, plus pagination metadata. -/
structure FeedResult where
  items : List (ContentDoc × Bool)
  page : Nat
  limit : Nat
  total : Nat
  pages : Nat
deriving Repr, DecidableEq

/-- The mongo query object getUserFeed builds: never-inappropriate,
source in the include list when that list is nonempty, some category in
the include list when that list is nonempty. -/
def feedQuery (contents : List ContentDoc) (includeSources : List Source)
    (includeCategories : List String) : List ContentDoc :=
  let q1 := contents.filter (fun c => c.isInappropriate == false)
  let q2 :=
    if includeSources.length > 0 then
      q1.filter (fun c => includeSources.contains c.source)
    else q1
  if includeCategories.length > 0 then
    q2.filter (fun c => c.categories.any (fun cat => includeCategories.contains cat))
  else q2

/-- FeedService.getUserFeed: sources defaulting to the user's enabled
sources when not supplied, categories defaulting to the user's
preferences, filter, sort descending by recency or engagement, paginate
with skip/limit, annotate isSaved against the user's saved content ids,
and report ceil(total / limit) pages. -/
def getUserFeed (contents : List ContentDoc) (userSavedIds : List Nat)
    (userEnabledSources : List Source) (userPrefCategories : List String)
    (sources : Option (List Source)) (categories : Option (List String))
    (sortBy : FeedSortBy) (page limit : Nat) : FeedResult :=
  let includeSources := sources.getD userEnabledSources
  let includeCategories := categories.getD userPrefCategories
  let query := feedQuery contents includeSources includeCategories
  let sorted :=
    match sortBy with
    | FeedSortBy.popular =>
      query.mergeSort (fun a b => b.engagement.totalEngagement ≤ a.engagement.totalEngagement)
    | FeedSortBy.recent =>
      query.mergeSort (fun a b => b.contentCreatedAt ≤ a.contentCreatedAt)
  let feedItems := (sorted.drop ((page - 1) * limit)).take limit
  let total := query.length
  { items := feedItems.map (fun c => (c, userSavedIds.contains c.id))
  , page := page
  , limit := limit
  , total := total
  , pages := (⌈(total : ℚ) / (limit : ℚ)⌉).toNat }

/-! ## Feed query properties (claim C8) -/

theorem ceil_toNat_eq_add_pred_div (a b : Nat) (h : 0 < b) :
    (⌈(a : ℚ) / (b : ℚ)⌉).toNat = (a + b - 1) / b := by
  have hb : (0:ℚ) < b := by exact_mod_cast h
  have hdm := Nat.div_add_mod (a + b - 1) b
  have hmod : (a + b - 1) % b < b := Nat.mod_lt _ h
  have hub : a ≤ b * ((a + b - 1) / b) := by
    generalize hq : b * ((a + b - 1) / b) = q at hdm ⊢
    omega
  have hlb : b * ((a + b - 1) / b) < a + b := by
    generalize hq : b * ((a + b - 1) / b) = q at hdm ⊢
    omega
  have hlbQ : (b:ℚ) * ((a + b - 1) / b : ℕ) < (a:ℚ) + b := by exact_mod_cast hlb
  have hubQ : (a:ℚ) ≤ (b:ℚ) * ((a + b - 1) / b : ℕ) := by exact_mod_cast hub
  have key : ⌈(a : ℚ) / (b : ℚ)⌉ = ((a + b - 1) / b : ℕ) := by
    rw [Int.ceil_eq_iff]
    constructor
    · rw [lt_div_iff₀ hb]
      simp only [Int.cast_natCast]
      linarith [hlbQ]
    · rw [div_le_iff₀ hb]
      simp only [Int.cast_natCast]
      linarith [hubQ]
  rw [key]
  exact Int.toNat_natCast _

theorem mem_feedQuery (contents : List ContentDoc) (is : List Source) (ic : List String)
    (c : ContentDoc) (h : c ∈ feedQuery contents is ic) :
    c ∈ contents ∧ c.isInappropriate = false ∧ (is ≠ [] → c.source ∈ is) := by
  simp only [feedQuery] at h
  have h2 : c ∈ (if is.length > 0 then
      (contents.filter (fun x => x.isInappropriate == false)).filter
        (fun x => is.contains x.source)
    else contents.filter (fun x => x.isInappropriate == false)) := by
    split at h
    · exact (List.mem_filter.mp h).1
    · exact h
  have h3 : c ∈ contents.filter (fun x => x.isInappropriate == false) ∧
      (is ≠ [] → c.source ∈ is) := by
    split at h2
    · refine ⟨(List.mem_filter.mp h2).1, fun _ => ?_⟩
      have := (List.mem_filter.mp h2).2
      simpa using this
    · rename_i hlen
      refine ⟨h2, fun hne => absurd ?_ hlen⟩
      simpa [List.length_pos] using hne
  obtain ⟨h4, h5⟩ := h3
  have h6 := List.mem_filter.mp h4
  refine ⟨h6.1, by simpa using h6.2, h5⟩

theorem mem_getUserFeed_items (contents : List ContentDoc) (savedIds : List Nat)
    (enabled : List Source) (prefCats : List String) (sources : Option (List Source))
    (cats : Option (List String)) (sortBy : FeedSortBy) (page limit : Nat)
    (it : ContentDoc × Bool)
    (h : it ∈ (getUserFeed contents savedIds enabled prefCats sources cats
      sortBy page limit).items) :
    it.1 ∈ feedQuery contents (sources.getD enabled) (cats.getD prefCats) := by
  simp only [getUserFeed] at h
  obtain ⟨c, hc, heq⟩ := List.mem_map.mp h
  have hc2 := List.mem_of_mem_drop (List.mem_of_mem_take hc)
  subst heq
  cases sortBy with
  | popular => exact (List.mergeSort_perm _ _).mem_iff.mp hc2
  | recent => exact (List.mergeSort_perm _ _).mem_iff.mp hc2

/-- C8: every item getUserFeed returns has isInappropriate false; the
returned pages count is the ceiling of total over limit; and when the
caller supplies a nonempty explicit sources filter, every returned item
has its source in that filter. -/
theorem C8_feed_filtering (contents : List ContentDoc) (savedIds : List Nat)
    (enabled : List Source) (prefCats : List String) (sources : Option (List Source))
    (cats : Option (List String)) (srcs : List Source) (sortBy : FeedSortBy)
    (page limit : Nat) (hlimit : 0 < limit) (hsrcs : srcs ≠ []) :
    (∀ it ∈ (getUserFeed contents savedIds enabled prefCats sources cats
        sortBy page limit).items, it.1.isInappropriate = false) ∧
    ((getUserFeed contents savedIds enabled prefCats sources cats
        sortBy page limit).pages =
      ((getUserFeed contents savedIds enabled prefCats sources cats
        sortBy page limit).total + limit - 1) / limit) ∧
    (∀ it ∈ (getUserFeed contents savedIds enabled prefCats (some srcs) cats
        sortBy page limit).items, it.1.source ∈ srcs) := by
  refine ⟨?_, ?_, ?_⟩
  · intro it hit
    exact (mem_feedQuery _ _ _ _
      (mem_getUserFeed_items _ _ _ _ _ _ _ _ _ _ hit)).2.1
  · exact ceil_toNat_eq_add_pred_div _ limit hlimit
  · intro it hit
    have := (mem_feedQuery _ _ _ _
      (mem_getUserFeed_items _ _ _ _ _ _ _ _ _ _ hit)).2.2
    simpa using this hsrcs

theorem C8_feed_filtering_witness :
    (getUserFeed [] [] [] [] none none FeedSortBy.recent 1 20).pages =
      ((getUserFeed [] [] [] [] none none FeedSortBy.recent 1 20).total + 20 - 1) / 20 :=
  (C8_feed_filtering [] [] [] [] none none [Source.twitter] FeedSortBy.recent 1 20
    (by decide) (by decide)).2.1

/-! ## Report uniqueness (claim C7) -/

/-- At most one report per (reporter, content) pair. -/
def onePerReporterContent (rs : List ReportDoc) : Prop :=
  List.Pairwise (fun a b => a.reporter ≠ b.reporter ∨ a.content ≠ b.content) rs

/-- C7: once a report by U on C succeeded, a second reportContent by U on
C fails with the duplicate-report error and leaves the report collection
unchanged, while a first report by a different reporter V on the same C
succeeds; and appending the successful report preserves the at-most-one
report per (reporter, content) invariant. -/
theorem C7_report_uniqueness (contents : List ContentDoc) (reports : List ReportDoc)
    (u v cId : Nat) (r1 d1 r2 d2 : String)
    (hc : (contents.find? (fun c => c.id == cId)).isSome)
    (hu : reports.find? (fun r => r.reporter == u && r.content == cId) = none) :
    reportContent contents reports u cId r1 d1 =
      (Except.ok (), reports ++ [newReport u cId r1 d1]) ∧
    reportContent contents (reports ++ [newReport u cId r1 d1]) u cId r2 d2 =
      (Except.error FeedError.duplicateReport, reports ++ [newReport u cId r1 d1]) ∧
    (v ≠ u → reports.find? (fun r => r.reporter == v && r.content == cId) = none →
      reportContent contents (reports ++ [newReport u cId r1 d1]) v cId r2 d2 =
        (Except.ok (),
          reports ++ [newReport u cId r1 d1] ++ [newReport v cId r2 d2])) ∧
    (onePerReporterContent reports →
      onePerReporterContent (reports ++ [newReport u cId r1 d1])) := by
  obtain ⟨cdoc, hcdoc⟩ := Option.isSome_iff_exists.mp hc
  have hpredu : ((newReport u cId r1 d1).reporter == u &&
      (newReport u cId r1 d1).content == cId) = true := by
    simp [newReport]
  refine ⟨?_, ?_, ?_, ?_⟩
  · simp only [reportContent, hcdoc, hu]
  · have hfind : (reports ++ [newReport u cId r1 d1]).find?
        (fun r => r.reporter == u && r.content == cId) = some (newReport u cId r1 d1) := by
      rw [List.find?_append, hu]
      simp [List.find?, hpredu]
    simp only [reportContent, hcdoc, hfind]
  · intro hv hvnone
    have hpredv : ((newReport u cId r1 d1).reporter == v &&
        (newReport u cId r1 d1).content == cId) = false := by
      have : (u == v) = false := beq_eq_false_iff_ne.mpr (fun h => hv h.symm)
      simp [newReport, this]
    have hfindv : (reports ++ [newReport u cId r1 d1]).find?
        (fun r => r.reporter == v && r.content == cId) = none := by
      rw [List.find?_append, hvnone]
      simp [List.find?, hpredv]
    simp only [reportContent, hcdoc, hfindv]
  · intro hinv
    refine List.pairwise_append.mpr ⟨hinv, List.pairwise_singleton _ _, ?_⟩
    intro a ha b hb
    simp only [List.mem_singleton] at hb
    subst hb
    have hnp := List.find?_eq_none.mp hu a ha
    simp only [newReport]
    rcases eq_or_ne a.reporter u with hr | hr
    · right
      intro hcon
      exact hnp (by simp [hr, hcon])
    · left
      exact hr

/-- A minimal content document with id 1 used by the feed witnesses. -/
def sampleContentDoc : ContentDoc :=
  { id := 1
  , source := Source.reddit
  , sourceId := "abc123"
  , sourceUsername := "alice"
  , sourceName := "alice"
  , contentType := "post"
  , title := some "Example title"
  , text := "body"
  , htmlContent := none
  , mediaUrls := []
  , mediaTypes := []
  , categories := ["test"]
  , url := "https://www.reddit.com/r/test/abc123"
  , engagement := { likes := 5, comments := 3, shares := 0, totalEngagement := 8 }
  , contentCreatedAt := 1700000000000
  , cacheExpiration := 1000 + 24 * 60 * 60 * 1000
  , isInappropriate := false }

theorem C7_report_uniqueness_witness :
    reportContent [sampleContentDoc]
        ([] ++ [newReport 10 1 "spam" "desc"]) 10 1 "spam" "again" =
      (Except.error FeedError.duplicateReport, [] ++ [newReport 10 1 "spam" "desc"]) :=
  (C7_report_uniqueness [sampleContentDoc] [] 10 11 1 "spam" "desc" "spam" "again"
    (by decide) rfl).2.1

/-! ## Saving twice and the credit frame (claim C10) -/

/-- C10: with the content present, the first saveContent for a (user,
content) pair appends one SavedContent row and awards the 2-credit save
interaction (one content_interaction earn transaction, balance up by 2);
a second saveContent for the same pair overwrites folder, tags and notes
on the existing row — no second row — returns success, and leaves
whatever ledger it is given entirely unchanged: no transaction is
appended and the balance does not move. -/
theorem C10_resave_updates_in_place (contents : List ContentDoc) (saved : List SavedDoc)
    (ledger : LedgerState) (u cId : Nat) (f1 : String) (tg1 : List String) (n1 : String)
    (f2 : String) (tg2 : List String) (n2 : String) (t1 t2 : Nat)
    (hc : (contents.find? (fun c => c.id == cId)).isSome)
    (hnew : saved.find? (fun s => s.user == u && s.content == cId) = none) :
    saveContent contents saved ledger u cId f1 tg1 n1 t1 =
      (Except.ok (),
        saved ++ [newSavedDoc u cId f1 tg1 n1],
        awardContentInteractionCredits ledger "save" t1) ∧
    (awardContentInteractionCredits ledger "save" t1).txLog =
      ledger.txLog ++
        [{ type := TxType.earn, amount := 2, balance := ledger.cb.balance + 2
         , category := Category.content_interaction, createdAt := t1 }] ∧
    (awardContentInteractionCredits ledger "save" t1).cb.balance =
      ledger.cb.balance + 2 ∧
    (∀ ledger2 : LedgerState,
      saveContent contents (saved ++ [newSavedDoc u cId f1 tg1 n1])
        ledger2 u cId f2 tg2 n2 t2 =
      (Except.ok (),
        saved ++ [newSavedDoc u cId f2 tg2 n2],
        ledger2)) := by
  obtain ⟨cdoc, hcdoc⟩ := Option.isSome_iff_exists.mp hc
  have hpredu : (((newSavedDoc u cId f1 tg1 n1).user == u) &&
      ((newSavedDoc u cId f1 tg1 n1).content == cId)) = true := by
    simp [newSavedDoc]
  refine ⟨?_, ?_, ?_, ?_⟩
  · simp only [saveContent, hcdoc, hnew]
  · simp only [awardContentInteractionCredits, serviceAddCredits, interactionReward,
      addCreditsM]
    norm_num
  · simp only [awardContentInteractionCredits, serviceAddCredits, interactionReward,
      addCreditsM]
    norm_num
  · intro ledger2
    have hfind : (saved ++ [newSavedDoc u cId f1 tg1 n1]).find?
        (fun s => s.user == u && s.content == cId) = some (newSavedDoc u cId f1 tg1 n1) := by
      rw [List.find?_append, hnew]
      simp [List.find?, hpredu]
    simp only [saveContent, hcdoc, hfind, List.map_append, List.map_cons, List.map_nil]
    have hstore : saved.map (fun s =>
        if (s.user == u && s.content == cId) = true then
          { s with folder := f2, tags := tg2, notes := n2 }
        else s) = saved := by
      conv_rhs => rw [(List.map_id saved).symm]
      apply List.map_congr_left
      intro s hs
      have hns := List.find?_eq_none.mp hnew s hs
      simp only [Bool.not_eq_true] at hns
      rw [hns]
      simp
    rw [hstore, if_pos hpredu]
    rfl

theorem C10_resave_updates_in_place_witness :
    saveContent [sampleContentDoc]
        ([] ++ [newSavedDoc 10 1 "General" [] ""])
        initialLedger 10 1 "Work" ["a"] "note" 2000 =
      (Except.ok (),
        [] ++ [newSavedDoc 10 1 "Work" ["a"] "note"],
        initialLedger) :=
  ((C10_resave_updates_in_place [sampleContentDoc] [] initialLedger 10 1
    "General" [] "" "Work" ["a"] "note" 1000 2000 (by decide) rfl).2.2.2) initialLedger

end CreatorDashboard
